import Mathlib

set_option maxRecDepth 4096

/-!
Verification of the 8086 MOV-family instruction decoder found in
`src/01-8086-simulator/cmd/02-multi-instruction-decoder.go`.

The Go source contains two program versions:
* the multi-variant decoder (register/memory MOV with modes 00/01/10/11 and
  immediate-to-register MOV), embedded below at the top level of `Sim8086`;
* an earlier register-to-register-only decoder, embedded in `Sim8086.V2`.

Bytes are modelled as `Nat` (Go `byte` values are below 256; theorems that
need that bound take it as a hypothesis).  Go's runtime index-out-of-range
panic is modelled as the explicit error `DecodeError.indexOutOfRange`, and
the error values returned by the state functions (which the Go driver turns
into a panic) are `DecodeError.trailingByte`, `DecodeError.unknownOpcode`
and `DecodeError.unexpectedOpcode`.  The driver loop is written with
explicit fuel; `Decode` supplies `data.length + 1` units, which is proved
sufficient (`decodeLoop` never returns `none` with that much fuel).
-/

namespace Sim8086

/-- The `RegisterNames` table: (register id, wide bit) → mnemonic.
Missing keys give `""`, like a Go map lookup of an absent key. -/
def RegisterNames (reg wideBit : Nat) : String :=
  match reg, wideBit with
  | 0, 0 => "al" | 0, 1 => "ax"
  | 1, 0 => "cl" | 1, 1 => "cx"
  | 2, 0 => "dl" | 2, 1 => "dx"
  | 3, 0 => "bl" | 3, 1 => "bx"
  | 4, 0 => "ah" | 4, 1 => "sp"
  | 5, 0 => "ch" | 5, 1 => "bp"
  | 6, 0 => "dh" | 6, 1 => "si"
  | 7, 0 => "bh" | 7, 1 => "di"
  | _, _ => ""

/-- The `MemoryEquations` table: r/m id → base/index addressing expression. -/
def MemoryEquations (rm : Nat) : String :=
  match rm with
  | 0 => "bx + si" | 1 => "bx + di" | 2 => "bp + si" | 3 => "bp + di"
  | 4 => "si" | 5 => "di" | 6 => "bp" | 7 => "bx"
  | _ => ""

/-- The ways a decode run can fail: the two `fmt.Errorf` errors of the first
program, the `fmt.Errorf` error of the second program, and the Go runtime
panic for an out-of-range slice index. -/
inductive DecodeError where
  | trailingByte : DecodeError
  | unknownOpcode (b : Nat) : DecodeError
  | unexpectedOpcode (op : Nat) : DecodeError
  | indexOutOfRange (i : Nat) : DecodeError
deriving DecidableEq, Repr

/-- Go's `%b` verb on an unsigned integer: binary digits, no leading zeros
(`0` prints as `"0"`). -/
def binRepr (n : Nat) : String :=
  String.mk (Nat.toDigits 2 n)

/-- The error text each `DecodeError` is reported with (the `fmt.Errorf`
format strings of the source; the index error renders the Go panic text). -/
def errorMessage : DecodeError → String
  | .trailingByte => "Trailing byte found"
  | .unknownOpcode b => "Unknown opcode: " ++ binRepr b
  | .unexpectedOpcode op => "Unexpected opcode: " ++ binRepr op
  | .indexOutOfRange i => "runtime error: index out of range [" ++ Nat.repr i ++ "]"

/-- `binary.BigEndian.Uint16([]byte{hi, lo})`. -/
def bigEndianUint16 (hi lo : Nat) : Nat :=
  (hi * 256 + lo) % 65536

/-- `MemoryMode`: mode 00, memory operand with no displacement.  Returns the
decoded line and the new pointer (the Go function appends the line and does
`params.Pointer += 2`). -/
def MemoryMode (destinationBit wideBit reg rm : Nat) (p : Nat) : String × Nat :=
  let location1 := "[" ++ MemoryEquations rm ++ "]"
  let location2 := RegisterNames reg wideBit
  let destName := if destinationBit = 1 then location2 else location1
  let srcName := if destinationBit = 1 then location1 else location2
  ("mov " ++ destName ++ ", " ++ srcName, p + 2)

/-- `MemoryMode8BitDisplace`: mode 01, memory operand with an 8-bit
displacement read from `Data[Pointer+2]` and zero-extended
(`BigEndian.Uint16{0, b}`).  `params.Pointer += 3`. -/
def MemoryMode8BitDisplace (destinationBit wideBit reg rm : Nat)
    (data : List Nat) (p : Nat) : Except DecodeError (String × Nat) :=
  match data[p + 2]? with
  | none => .error (.indexOutOfRange (p + 2))
  | some dispByte =>
    let d16 := bigEndianUint16 0 dispByte
    let location1 := "[" ++ MemoryEquations rm ++ " + " ++ Nat.repr d16 ++ "]"
    let location2 := RegisterNames reg wideBit
    let destName := if destinationBit = 1 then location2 else location1
    let srcName := if destinationBit = 1 then location1 else location2
    .ok ("mov " ++ destName ++ ", " ++ srcName, p + 3)

/-- `MemoryMode16BitDisplace`: mode 10, memory operand with a 16-bit
little-endian displacement (`BigEndian.Uint16{Data[P+3], Data[P+2]}`; the
source evaluates `Data[P+3]` first).  `params.Pointer += 4`. -/
def MemoryMode16BitDisplace (destinationBit wideBit reg rm : Nat)
    (data : List Nat) (p : Nat) : Except DecodeError (String × Nat) :=
  match data[p + 3]?, data[p + 2]? with
  | none, _ => .error (.indexOutOfRange (p + 3))
  | some _, none => .error (.indexOutOfRange (p + 2))
  | some hiByte, some loByte =>
    let d16 := bigEndianUint16 hiByte loByte
    let location1 := "[" ++ MemoryEquations rm ++ " + " ++ Nat.repr d16 ++ "]"
    let location2 := RegisterNames reg wideBit
    let destName := if destinationBit = 1 then location2 else location1
    let srcName := if destinationBit = 1 then location1 else location2
    .ok ("mov " ++ destName ++ ", " ++ srcName, p + 4)

/-- `RegisterMode`: mode 11, register-to-register.  `params.Pointer += 2`. -/
def RegisterMode (destinationBit wideBit reg rm : Nat) (p : Nat) : String × Nat :=
  let destRegName :=
    if destinationBit = 1 then RegisterNames reg wideBit else RegisterNames rm wideBit
  let srcRegName :=
    if destinationBit = 1 then RegisterNames rm wideBit else RegisterNames reg wideBit
  ("mov " ++ destRegName ++ ", " ++ srcRegName, p + 2)

/-- `RegAndRegOrMemState`: reads the two header bytes, extracts the fields
and sub-dispatches on the mode bits. -/
def RegAndRegOrMemState (data : List Nat) (p : Nat) : Except DecodeError (String × Nat) :=
  match data[p]?, data[p + 1]? with
  | none, _ => .error (.indexOutOfRange p)
  | some _, none => .error (.indexOutOfRange (p + 1))
  | some byte1, some byte2 =>
    let destinationBit := (byte1 >>> 1) &&& 0b1
    let wideBit := (byte1 >>> 0) &&& 0b1
    let mode := (byte2 >>> 6) &&& 0b11
    let reg := (byte2 >>> 3) &&& 0b111
    let rm := (byte2 >>> 0) &&& 0b111
    if mode = 0b00 then
      .ok (MemoryMode destinationBit wideBit reg rm p)
    else if mode = 0b01 then
      MemoryMode8BitDisplace destinationBit wideBit reg rm data p
    else if mode = 0b10 then
      MemoryMode16BitDisplace destinationBit wideBit reg rm data p
    else
      .ok (RegisterMode destinationBit wideBit reg rm p)

/-- `ImmediateToRegisterMovState`: single header byte carrying the wide bit
(bit 3) and register id (bits 2-0), followed by one or two immediate bytes. -/
def ImmediateToRegisterMovState (data : List Nat) (p : Nat) :
    Except DecodeError (String × Nat) :=
  match data[p]? with
  | none => .error (.indexOutOfRange p)
  | some byte1 =>
    let wideBit := (byte1 >>> 3) &&& 0b1
    let reg := (byte1 >>> 0) &&& 0b111
    if wideBit = 1 then
      match data[p + 2]?, data[p + 1]? with
      | none, _ => .error (.indexOutOfRange (p + 2))
      | some _, none => .error (.indexOutOfRange (p + 1))
      | some hiByte, some loByte =>
        let d16 := bigEndianUint16 hiByte loByte
        let destRegName := RegisterNames reg wideBit
        .ok ("mov " ++ destRegName ++ ", " ++ Nat.repr d16, p + 3)
    else
      match data[p + 1]? with
      | none => .error (.indexOutOfRange (p + 1))
      | some loByte =>
        let d16 := bigEndianUint16 0 loByte
        let destRegName := RegisterNames reg wideBit
        .ok ("mov " ++ destRegName ++ ", " ++ Nat.repr d16, p + 2)

/-- Outcome of one full driver iteration starting at `InitialState`. -/
inductive StepResult where
  | done : StepResult
  | fail (e : DecodeError) : StepResult
  | emit (line : String) (pn : Nat) : StepResult
deriving DecidableEq, Repr

/-- One driver iteration: `InitialState` (end-of-buffer/trailing-byte checks
and opcode classification) followed by the dispatched variant resolver. -/
def decodeStep (data : List Nat) (p : Nat) : StepResult :=
  let bytesLeft : Int := (data.length : Int) - (p : Int)
  if bytesLeft = 0 then .done
  else if bytesLeft = 1 then .fail .trailingByte
  else
    match data[p]? with
    | none => .fail (.indexOutOfRange p)
    | some nextByte =>
      if (nextByte >>> 2) ^^^ 0b100010 = 0 then
        match RegAndRegOrMemState data p with
        | .ok (line, pn) => .emit line pn
        | .error e => .fail e
      else if (nextByte >>> 4) ^^^ 0b1011 = 0 then
        match ImmediateToRegisterMovState data p with
        | .ok (line, pn) => .emit line pn
        | .error e => .fail e
      else
        .fail (.unknownOpcode nextByte)

/-- The driver loop of `Decode`, with explicit fuel (`none` = fuel ran out;
this never happens with the fuel `Decode` supplies). -/
def decodeLoop : Nat → List Nat → Nat → List String →
    Option (Except DecodeError (List String))
  | 0, _, _, _ => none
  | fuel + 1, data, p, acc =>
    match decodeStep data p with
    | .done => some (.ok acc)
    | .fail e => some (.error e)
    | .emit line pn => decodeLoop fuel data pn (acc ++ [line])

/-- `Decode` (first program version): run the state machine from pointer 0
with an empty output sequence. -/
def Decode (input : List Nat) : Option (Except DecodeError (List String)) :=
  decodeLoop (input.length + 1) input 0 []

namespace V2

/-- `RegisterToRegisterMovState` of the second program version: checks the
opcode itself and decodes every instruction as register-to-register,
ignoring the mode bits. -/
def RegisterToRegisterMovState (data : List Nat) (p : Nat) :
    Except DecodeError (String × Nat) :=
  match data[p]?, data[p + 1]? with
  | none, _ => .error (.indexOutOfRange p)
  | some _, none => .error (.indexOutOfRange (p + 1))
  | some byte1, some byte2 =>
    let opcode := byte1 >>> 2
    if opcode ≠ 0b100010 then
      .error (.unexpectedOpcode opcode)
    else
      let destinationBit := (byte1 >>> 1) &&& 0b1
      let wideBit := (byte1 >>> 0) &&& 0b1
      let reg := (byte2 >>> 3) &&& 0b111
      let rm := (byte2 >>> 0) &&& 0b111
      let destRegName :=
        if destinationBit = 1 then RegisterNames reg wideBit else RegisterNames rm wideBit
      let srcRegName :=
        if destinationBit = 1 then RegisterNames rm wideBit else RegisterNames reg wideBit
      .ok ("mov " ++ destRegName ++ ", " ++ srcRegName, p + 2)

/-- One driver iteration of the second program version. -/
def decodeStep (data : List Nat) (p : Nat) : StepResult :=
  let bytesLeft : Int := (data.length : Int) - (p : Int)
  if bytesLeft = 0 then .done
  else if bytesLeft = 1 then .fail .trailingByte
  else
    match RegisterToRegisterMovState data p with
    | .ok (line, pn) => .emit line pn
    | .error e => .fail e

/-- The driver loop of the second program version, with explicit fuel. -/
def decodeLoop : Nat → List Nat → Nat → List String →
    Option (Except DecodeError (List String))
  | 0, _, _, _ => none
  | fuel + 1, data, p, acc =>
    match decodeStep data p with
    | .done => some (.ok acc)
    | .fail e => some (.error e)
    | .emit line pn => decodeLoop fuel data pn (acc ++ [line])

/-- `Decode` of the second program version. -/
def Decode (input : List Nat) : Option (Except DecodeError (List String)) :=
  decodeLoop (input.length + 1) input 0 []

end V2

/-- Re-encoding of a decoded field set by the documented byte layout (opcode
in the high 6 bits of byte 1, direction and width in the low 2 bits of
byte 1, mode in the high 2 bits of byte 2, reg in bits 5-3, r/m in bits 2-0),
used to state the decode/encode round-trip property. -/
def encodeRegReg (opcode destinationBit wideBit mode reg rm : Nat) : Nat × Nat :=
  (opcode <<< 2 ||| destinationBit <<< 1 ||| wideBit,
   mode <<< 6 ||| reg <<< 3 ||| rm)

/-- Flatten a list of two-byte instructions into an input buffer. -/
def regRegBytes : List (Nat × Nat) → List Nat
  | [] => []
  | (b1, b2) :: rest => b1 :: b2 :: regRegBytes rest

/-! ### Helper lemmas -/

theorem getElem?_some_lt {l : List Nat} {i a : Nat} (h : l[i]? = some a) :
    i < l.length :=
  (List.getElem?_eq_some.mp h).1

theorem MemoryMode8BitDisplace_ok {d w reg rm : Nat} {data : List Nat} {p : Nat}
    {line : String} {pn : Nat}
    (h : MemoryMode8BitDisplace d w reg rm data p = .ok (line, pn)) :
    pn = p + 3 ∧ p + 2 < data.length := by
  cases hq : data[p + 2]? with
  | none => simp [MemoryMode8BitDisplace, hq] at h
  | some b =>
    simp only [MemoryMode8BitDisplace, hq, Except.ok.injEq, Prod.mk.injEq] at h
    exact ⟨h.2.symm, getElem?_some_lt hq⟩

theorem MemoryMode16BitDisplace_ok {d w reg rm : Nat} {data : List Nat} {p : Nat}
    {line : String} {pn : Nat}
    (h : MemoryMode16BitDisplace d w reg rm data p = .ok (line, pn)) :
    pn = p + 4 ∧ p + 3 < data.length := by
  cases hq3 : data[p + 3]? with
  | none => simp [MemoryMode16BitDisplace, hq3] at h
  | some b3 =>
    cases hq2 : data[p + 2]? with
    | none => simp [MemoryMode16BitDisplace, hq3, hq2] at h
    | some b2 =>
      simp only [MemoryMode16BitDisplace, hq3, hq2, Except.ok.injEq, Prod.mk.injEq] at h
      exact ⟨h.2.symm, getElem?_some_lt hq3⟩

theorem ImmediateToRegisterMovState_ok {data : List Nat} {p : Nat}
    {line : String} {pn : Nat}
    (h : ImmediateToRegisterMovState data p = .ok (line, pn)) :
    p + 2 ≤ pn ∧ pn ≤ data.length := by
  cases hq : data[p]? with
  | none => simp [ImmediateToRegisterMovState, hq] at h
  | some b1 =>
    simp only [ImmediateToRegisterMovState, hq] at h
    by_cases hw : (b1 >>> 3) &&& 0b1 = 1
    · rw [if_pos hw] at h
      cases hq2 : data[p + 2]? with
      | none => simp only [hq2] at h; exact absurd h (by simp)
      | some hi =>
        cases hq1 : data[p + 1]? with
        | none => simp only [hq2, hq1] at h; exact absurd h (by simp)
        | some lo =>
          simp only [hq2, hq1, Except.ok.injEq, Prod.mk.injEq] at h
          have := getElem?_some_lt hq2
          omega
    · rw [if_neg hw] at h
      cases hq1 : data[p + 1]? with
      | none => simp only [hq1] at h; exact absurd h (by simp)
      | some lo =>
        simp only [hq1, Except.ok.injEq, Prod.mk.injEq] at h
        have := getElem?_some_lt hq1
        omega

theorem RegAndRegOrMemState_ok {data : List Nat} {p : Nat} {line : String} {pn : Nat}
    (h : RegAndRegOrMemState data p = .ok (line, pn)) :
    p + 2 ≤ pn ∧ pn ≤ data.length := by
  cases hq0 : data[p]? with
  | none => simp [RegAndRegOrMemState, hq0] at h
  | some b1 =>
    cases hq1 : data[p + 1]? with
    | none => simp [RegAndRegOrMemState, hq0, hq1] at h
    | some b2 =>
      have hlen1 : p + 1 < data.length := getElem?_some_lt hq1
      simp only [RegAndRegOrMemState, hq0, hq1] at h
      by_cases hm0 : (b2 >>> 6) &&& 0b11 = 0
      · simp only [hm0, if_true, MemoryMode, Except.ok.injEq, Prod.mk.injEq] at h
        omega
      · by_cases hm1 : (b2 >>> 6) &&& 0b11 = 1
        · simp only [hm0, hm1, if_false, if_true] at h
          have := MemoryMode8BitDisplace_ok h
          omega
        · by_cases hm2 : (b2 >>> 6) &&& 0b11 = 2
          · simp only [hm0, hm1, hm2, if_false, if_true] at h
            have := MemoryMode16BitDisplace_ok h
            omega
          · simp only [hm0, hm1, hm2, if_false, RegisterMode, Except.ok.injEq,
              Prod.mk.injEq] at h
            omega

theorem decodeStep_emit_bounds {data : List Nat} {p pn : Nat} {line : String}
    (h : decodeStep data p = .emit line pn) :
    p + 2 ≤ pn ∧ pn ≤ data.length := by
  unfold decodeStep at h
  by_cases h0 : (data.length : Int) - (p : Int) = 0
  · simp [h0] at h
  · by_cases h1 : (data.length : Int) - (p : Int) = 1
    · simp [h0, h1] at h
    · simp only [h0, h1, if_false] at h
      cases hq : data[p]? with
      | none => simp [hq] at h
      | some b =>
        simp only [hq] at h
        by_cases hop1 : (b >>> 2) ^^^ 0b100010 = 0
        · simp only [hop1, if_true] at h
          cases hr : RegAndRegOrMemState data p with
          | error e => simp [hr] at h
          | ok v =>
            obtain ⟨line1, pn1⟩ := v
            simp only [hr, StepResult.emit.injEq] at h
            obtain ⟨-, rfl⟩ := h
            exact RegAndRegOrMemState_ok hr
        · by_cases hop2 : (b >>> 4) ^^^ 0b1011 = 0
          · simp only [hop1, hop2, if_false, if_true] at h
            cases hr : ImmediateToRegisterMovState data p with
            | error e => simp [hr] at h
            | ok v =>
              obtain ⟨line1, pn1⟩ := v
              simp only [hr, StepResult.emit.injEq] at h
              obtain ⟨-, rfl⟩ := h
              exact ImmediateToRegisterMovState_ok hr
          · simp [hop1, hop2] at h

theorem decodeStep_done {data : List Nat} {p : Nat} (h : data.length = p) :
    decodeStep data p = .done := by
  have c0 : (data.length : Int) - (p : Int) = 0 := by omega
  simp only [decodeStep, if_pos c0]

theorem decodeStep_trailing {data : List Nat} {p : Nat} (h : data.length = p + 1) :
    decodeStep data p = .fail .trailingByte := by
  have c0 : ¬((data.length : Int) - (p : Int) = 0) := by omega
  have c1 : (data.length : Int) - (p : Int) = 1 := by omega
  simp only [decodeStep, if_neg c0, if_pos c1]

theorem decodeStep_regmem {data : List Nat} {p b1 b2 : Nat}
    (h1 : data[p]? = some b1) (h2 : data[p + 1]? = some b2)
    (hop : b1 >>> 2 = 0b100010) :
    decodeStep data p =
      match RegAndRegOrMemState data p with
      | .ok (line, pn) => .emit line pn
      | .error e => .fail e := by
  have hlen : p + 1 < data.length := getElem?_some_lt h2
  have c0 : ¬((data.length : Int) - (p : Int) = 0) := by omega
  have c1 : ¬((data.length : Int) - (p : Int) = 1) := by omega
  have hx : (b1 >>> 2) ^^^ 0b100010 = 0 := by rw [hop]; simp
  simp only [decodeStep, if_neg c0, if_neg c1, h1, if_pos hx]

theorem decodeStep_imm {data : List Nat} {p b1 : Nat}
    (h1 : data[p]? = some b1) (hlen : p + 1 < data.length)
    (hop : b1 >>> 4 = 0b1011) :
    decodeStep data p =
      match ImmediateToRegisterMovState data p with
      | .ok (line, pn) => .emit line pn
      | .error e => .fail e := by
  have c0 : ¬((data.length : Int) - (p : Int) = 0) := by omega
  have c1 : ¬((data.length : Int) - (p : Int) = 1) := by omega
  have e2 : b1 >>> 2 = b1 / 4 := by rw [Nat.shiftRight_eq_div_pow]
  have e4 : b1 >>> 4 = b1 / 16 := by rw [Nat.shiftRight_eq_div_pow]
  have hne : ¬(b1 >>> 2 = 0b100010) := by
    rw [e2]; rw [e4] at hop; omega
  have hx1 : ¬((b1 >>> 2) ^^^ 0b100010 = 0) := fun hx => hne (Nat.xor_eq_zero.mp hx)
  have hx2 : (b1 >>> 4) ^^^ 0b1011 = 0 := by rw [hop]; simp
  simp only [decodeStep, if_neg c0, if_neg c1, h1, if_neg hx1, if_pos hx2]

theorem decodeStep_unknown {data : List Nat} {p b : Nat}
    (hb : data[p]? = some b) (hlen : p + 1 < data.length)
    (hop1 : b >>> 2 ≠ 0b100010) (hop2 : b >>> 4 ≠ 0b1011) :
    decodeStep data p = .fail (.unknownOpcode b) := by
  have c0 : ¬((data.length : Int) - (p : Int) = 0) := by omega
  have c1 : ¬((data.length : Int) - (p : Int) = 1) := by omega
  have hx1 : ¬((b >>> 2) ^^^ 0b100010 = 0) := fun hx => hop1 (Nat.xor_eq_zero.mp hx)
  have hx2 : ¬((b >>> 4) ^^^ 0b1011 = 0) := fun hx => hop2 (Nat.xor_eq_zero.mp hx)
  simp only [decodeStep, if_neg c0, if_neg c1, hb, if_neg hx1, if_neg hx2]

theorem V2decodeStep_done {data : List Nat} {p : Nat} (h : data.length = p) :
    V2.decodeStep data p = .done := by
  have c0 : (data.length : Int) - (p : Int) = 0 := by omega
  simp only [V2.decodeStep, if_pos c0]

theorem V2decodeStep_go {data : List Nat} {p : Nat} (hlen : p + 1 < data.length) :
    V2.decodeStep data p =
      match V2.RegisterToRegisterMovState data p with
      | .ok (line, pn) => .emit line pn
      | .error e => .fail e := by
  have c0 : ¬((data.length : Int) - (p : Int) = 0) := by omega
  have c1 : ¬((data.length : Int) - (p : Int) = 1) := by omega
  simp only [V2.decodeStep, if_neg c0, if_neg c1]

theorem decodeLoop_ne_none :
    ∀ (fuel : Nat) (data : List Nat) (p : Nat) (acc : List String),
    data.length - p < fuel → decodeLoop fuel data p acc ≠ none := by
  intro fuel
  induction fuel with
  | zero => intro data p acc h; omega
  | succ f ih =>
    intro data p acc h
    cases hs : decodeStep data p with
    | done => simp [decodeLoop, hs]
    | fail e => simp [decodeLoop, hs]
    | emit line pn =>
      have hb := decodeStep_emit_bounds hs
      simp only [decodeLoop, hs]
      exact ih data pn (acc ++ [line]) (by omega)

example : Decode [0b10001011, 0b00000000] = some (.ok ["mov ax, [bx + si]"]) := rfl

example : Decode [0b10001001, 0b11011001] = some (.ok ["mov cx, bx"]) := rfl

example : Decode [0b10111000, 0b00000001, 0b00000000] = some (.ok ["mov ax, 1"]) := rfl

example : Decode [0b10001010, 0b01000000] = some (.error (.indexOutOfRange 2)) := rfl

example : Decode [] = some (.ok []) := rfl

example : Decode [0b10001011] = some (.error .trailingByte) := rfl

example : V2.Decode [0b10001001, 0b11011001] = some (.ok ["mov cx, bx"]) := rfl

theorem RegAndRegOrMemState_ok_cases {data : List Nat} {p b1 b2 : Nat}
    {line : String} {pn : Nat}
    (h1 : data[p]? = some b1) (h2 : data[p + 1]? = some b2)
    (hr : RegAndRegOrMemState data p = .ok (line, pn)) :
    ∃ rmOp : String,
      line = "mov " ++
          (if (b1 >>> 1) &&& 0b1 = 1
            then RegisterNames ((b2 >>> 3) &&& 0b111) ((b1 >>> 0) &&& 0b1) else rmOp) ++
          ", " ++
          (if (b1 >>> 1) &&& 0b1 = 1
            then rmOp else RegisterNames ((b2 >>> 3) &&& 0b111) ((b1 >>> 0) &&& 0b1)) ∧
      (((b2 >>> 6) &&& 0b11 = 0 ∧ pn = p + 2 ∧
          rmOp = "[" ++ MemoryEquations ((b2 >>> 0) &&& 0b111) ++ "]") ∨
       ((b2 >>> 6) &&& 0b11 = 1 ∧ pn = p + 3 ∧ ∃ disp : Nat,
          data[p + 2]? = some disp ∧
          rmOp = "[" ++ MemoryEquations ((b2 >>> 0) &&& 0b111) ++ " + " ++
            Nat.repr (bigEndianUint16 0 disp) ++ "]") ∨
       ((b2 >>> 6) &&& 0b11 = 2 ∧ pn = p + 4 ∧ ∃ lo hi : Nat,
          data[p + 2]? = some lo ∧ data[p + 3]? = some hi ∧
          rmOp = "[" ++ MemoryEquations ((b2 >>> 0) &&& 0b111) ++ " + " ++
            Nat.repr (bigEndianUint16 hi lo) ++ "]") ∨
       ((b2 >>> 6) &&& 0b11 = 3 ∧ pn = p + 2 ∧
          rmOp = RegisterNames ((b2 >>> 0) &&& 0b111) ((b1 >>> 0) &&& 0b1))) := by
  simp only [RegAndRegOrMemState, h1, h2] at hr
  by_cases hm0 : (b2 >>> 6) &&& 0b11 = 0
  · rw [if_pos hm0] at hr
    simp only [MemoryMode, Except.ok.injEq, Prod.mk.injEq] at hr
    exact ⟨"[" ++ MemoryEquations ((b2 >>> 0) &&& 0b111) ++ "]", hr.1.symm,
      Or.inl ⟨hm0, hr.2.symm, rfl⟩⟩
  · by_cases hm1 : (b2 >>> 6) &&& 0b11 = 1
    · rw [if_neg hm0, if_pos hm1] at hr
      cases hq2 : data[p + 2]? with
      | none =>
        simp only [MemoryMode8BitDisplace, hq2] at hr
        exact absurd hr (by simp)
      | some disp =>
        simp only [MemoryMode8BitDisplace, hq2, Except.ok.injEq, Prod.mk.injEq] at hr
        exact ⟨"[" ++ MemoryEquations ((b2 >>> 0) &&& 0b111) ++ " + " ++
            Nat.repr (bigEndianUint16 0 disp) ++ "]", hr.1.symm,
          Or.inr (Or.inl ⟨hm1, hr.2.symm, disp, rfl, rfl⟩)⟩
    · by_cases hm2 : (b2 >>> 6) &&& 0b11 = 2
      · rw [if_neg hm0, if_neg hm1, if_pos hm2] at hr
        cases hq3 : data[p + 3]? with
        | none =>
          simp only [MemoryMode16BitDisplace, hq3] at hr
          exact absurd hr (by simp)
        | some hi =>
          cases hq2 : data[p + 2]? with
          | none =>
            simp only [MemoryMode16BitDisplace, hq3, hq2] at hr
            exact absurd hr (by simp)
          | some lo =>
            simp only [MemoryMode16BitDisplace, hq3, hq2, Except.ok.injEq,
              Prod.mk.injEq] at hr
            exact ⟨"[" ++ MemoryEquations ((b2 >>> 0) &&& 0b111) ++ " + " ++
                Nat.repr (bigEndianUint16 hi lo) ++ "]", hr.1.symm,
              Or.inr (Or.inr (Or.inl ⟨hm2, hr.2.symm, lo, hi, rfl, rfl, rfl⟩))⟩
      · rw [if_neg hm0, if_neg hm1, if_neg hm2] at hr
        have hm3 : (b2 >>> 6) &&& 0b11 = 3 := by
          have hle : (b2 >>> 6) &&& 0b11 ≤ 0b11 := Nat.and_le_right
          omega
        simp only [RegisterMode, Except.ok.injEq, Prod.mk.injEq] at hr
        exact ⟨RegisterNames ((b2 >>> 0) &&& 0b111) ((b1 >>> 0) &&& 0b1), hr.1.symm,
          Or.inr (Or.inr (Or.inr ⟨hm3, hr.2.symm, rfl⟩))⟩

theorem decoders_agree_loop :
    ∀ (instrs : List (Nat × Nat)) (data : List Nat) (p : Nat) (acc : List String)
      (fuel1 fuel2 : Nat),
      data.drop p = regRegBytes instrs →
      p ≤ data.length →
      (∀ pr ∈ instrs, pr.1 >>> 2 = 0b100010 ∧ (pr.2 >>> 6) &&& 0b11 = 0b11) →
      data.length - p < fuel1 →
      data.length - p < fuel2 →
      decodeLoop fuel1 data p acc = V2.decodeLoop fuel2 data p acc := by
  intro instrs
  induction instrs with
  | nil =>
    intro data p acc fuel1 fuel2 hdrop hp hwf hf1 hf2
    have hlen : data.length = p := by
      have h := congrArg List.length hdrop
      simp [regRegBytes] at h
      omega
    match fuel1, fuel2, hf1, hf2 with
    | f1 + 1, f2 + 1, _, _ =>
      simp [decodeLoop, V2.decodeLoop, decodeStep_done hlen, V2decodeStep_done hlen]
  | cons pr rest ih =>
    obtain ⟨b1, b2⟩ := pr
    intro data p acc fuel1 fuel2 hdrop hp hwf hf1 hf2
    have h1 : data[p]? = some b1 := by
      have h := List.getElem?_drop data p 0
      rw [hdrop] at h
      simpa [regRegBytes] using h.symm
    have h2 : data[p + 1]? = some b2 := by
      have h := List.getElem?_drop data p 1
      rw [hdrop] at h
      simpa [regRegBytes] using h.symm
    have hrest : data.drop (p + 2) = regRegBytes rest := by
      have h := List.drop_drop 2 p data
      rw [hdrop] at h
      simpa [regRegBytes] using h.symm
    obtain ⟨hop1, hmode⟩ := hwf (b1, b2) (List.mem_cons_self _ _)
    have hwfrest : ∀ pr ∈ rest, pr.1 >>> 2 = 0b100010 ∧ (pr.2 >>> 6) &&& 0b11 = 0b11 :=
      fun pr hpr => hwf pr (List.mem_cons_of_mem _ hpr)
    have hlen2 : p + 1 < data.length := getElem?_some_lt h2
    match fuel1, fuel2, hf1, hf2 with
    | f1 + 1, f2 + 1, hf1, hf2 =>
      simp only [decodeLoop, V2.decodeLoop]
      rw [decodeStep_regmem h1 h2 hop1, V2decodeStep_go hlen2]
      simp only [RegAndRegOrMemState, V2.RegisterToRegisterMovState, h1, h2]
      rw [hmode, hop1]
      simp only [RegisterMode]
      norm_num
      exact ih data (p + 2) _ f1 f2 hrest (by omega) hwfrest (by omega) (by omega)

/-! ### Claim theorems -/

/-- **C2, counterexample.** The claim that decoding `[0b10001011, 0b00000000]`
produces the line `mov al, [bx + si]` is false: the decoder produces exactly
one line and it is `mov ax, [bx + si]` (the low bit of `0b10001011` — the
wide bit — is 1, so the REG operand is `ax`, not `al`). -/
theorem decode_8b00_cex :
    Decode [0b10001011, 0b00000000] = some (.ok ["mov ax, [bx + si]"]) ∧
      "mov ax, [bx + si]" ≠ "mov al, [bx + si]" :=
  ⟨rfl, by decide⟩

/-- **C2, amended.** Decoding the two-byte input `[0b10001011, 0b00000000]`
succeeds and produces exactly one output line, the text `mov ax, [bx + si]`
(the wide bit of the header byte is 1, so the REG operand is the 16-bit
register `ax`). -/
theorem decode_8b00_output :
    Decode [0b10001011, 0b00000000] = some (.ok ["mov ax, [bx + si]"]) := rfl

/-- **C1, counterexample.** The claim that a mode-01 instruction starting
with only 2 bytes remaining is reported as a truncation error is false: on
the buffer `[0b10001010, 0b01000000]` the decoder reads out of bounds (the
Go runtime panics with an index-out-of-range error at index 2), which is
not the trailing-byte truncation error. -/
theorem truncation_error_claim_cex :
    Decode [0b10001010, 0b01000000] = some (.error (.indexOutOfRange 2)) ∧
      DecodeError.indexOutOfRange 2 ≠ DecodeError.trailingByte :=
  ⟨rfl, by decide⟩

/-- **C1, amended.** Whenever a step emits an instruction, the cursor plus
the bytes consumed stays within the buffer; but when the dispatched variant
needs bytes beyond the buffer (a mode-01 instruction with fewer than 3
bytes remaining, a mode-10 instruction with fewer than 4, a wide
immediate-to-register instruction with fewer than 3), the step fails with
an index-out-of-range fault (the modelled Go panic), not with a reported
truncation error; the truncation error is only produced at instruction
start when exactly one byte remains.  Decoding never silently skips. -/
theorem truncation_behaviour (data : List Nat) (p : Nat) :
    (∀ line pn, decodeStep data p = .emit line pn → pn ≤ data.length) ∧
    (∀ b1 b2 : Nat, data[p]? = some b1 → data[p + 1]? = some b2 →
      (b1 >>> 2 = 0b100010 → (b2 >>> 6) &&& 0b11 = 1 → data.length < p + 3 →
        decodeStep data p = .fail (.indexOutOfRange (p + 2))) ∧
      (b1 >>> 2 = 0b100010 → (b2 >>> 6) &&& 0b11 = 2 → data.length < p + 4 →
        decodeStep data p = .fail (.indexOutOfRange (p + 3))) ∧
      (b1 >>> 4 = 0b1011 → (b1 >>> 3) &&& 0b1 = 1 → data.length < p + 3 →
        decodeStep data p = .fail (.indexOutOfRange (p + 2)))) := by
  constructor
  · intro line pn h
    exact (decodeStep_emit_bounds h).2
  · intro b1 b2 h1 h2
    refine ⟨?_, ?_, ?_⟩
    · intro hop hm hlen
      have hq2 : data[p + 2]? = none := List.getElem?_eq_none (by omega)
      rw [decodeStep_regmem h1 h2 hop]
      simp only [RegAndRegOrMemState, h1, h2]
      rw [hm]
      simp [MemoryMode8BitDisplace, hq2]
    · intro hop hm hlen
      have hq3 : data[p + 3]? = none := List.getElem?_eq_none (by omega)
      rw [decodeStep_regmem h1 h2 hop]
      simp only [RegAndRegOrMemState, h1, h2]
      rw [hm]
      simp [MemoryMode16BitDisplace, hq3]
    · intro hop hw hlen
      have hq2 : data[p + 2]? = none := List.getElem?_eq_none (by omega)
      rw [decodeStep_imm h1 (getElem?_some_lt h2) hop]
      simp only [ImmediateToRegisterMovState, h1]
      rw [if_pos hw]
      simp [hq2]

/-- Witness for `truncation_behaviour` on the 2-byte mode-01 buffer
`[0b10001010, 0b01000000]`. -/
theorem truncation_behaviour_witness :
    decodeStep [0b10001010, 0b01000000] 0 = .fail (.indexOutOfRange (0 + 2)) :=
  ((truncation_behaviour [0b10001010, 0b01000000] 0).2 0b10001010 0b01000000
    rfl rfl).1 (by decide) (by decide) (by decide)

/-- **C3.** For every register/memory move instruction (opcode bits
`100010`), the number of bytes consumed in one decode step — the amount the
cursor advances by — is exactly 2 for mode 00, 3 for mode 01, 4 for mode
10, and 2 for mode 11. -/
theorem regmem_bytes_consumed (data : List Nat) (p b1 b2 : Nat) (line : String)
    (pn : Nat) (h1 : data[p]? = some b1) (h2 : data[p + 1]? = some b2)
    (hop : b1 >>> 2 = 0b100010)
    (hstep : decodeStep data p = .emit line pn) :
    ((b2 >>> 6) &&& 0b11 = 0 → pn = p + 2) ∧
    ((b2 >>> 6) &&& 0b11 = 1 → pn = p + 3) ∧
    ((b2 >>> 6) &&& 0b11 = 2 → pn = p + 4) ∧
    ((b2 >>> 6) &&& 0b11 = 3 → pn = p + 2) := by
  rw [decodeStep_regmem h1 h2 hop] at hstep
  cases hr : RegAndRegOrMemState data p with
  | error e => rw [hr] at hstep; exact absurd hstep (by simp)
  | ok v =>
    obtain ⟨l1, pn1⟩ := v
    rw [hr] at hstep
    obtain ⟨rfl, rfl⟩ : l1 = line ∧ pn1 = pn := by simpa using hstep
    obtain ⟨rmOp, -, hcases⟩ := RegAndRegOrMemState_ok_cases h1 h2 hr
    refine ⟨?_, ?_, ?_, ?_⟩ <;> intro hm <;>
      rcases hcases with ⟨hm2, hpn, -⟩ | ⟨hm2, hpn, -⟩ | ⟨hm2, hpn, -⟩ | ⟨hm2, hpn, -⟩ <;>
        first
          | exact hpn
          | exact absurd (hm2.symm.trans hm) (by decide)

/-- Witness for `regmem_bytes_consumed` on the mode-00 buffer
`[0b10001011, 0b00000000]`. -/
theorem regmem_bytes_consumed_witness : (2 : Nat) = 0 + 2 :=
  (regmem_bytes_consumed [0b10001011, 0b00000000] 0 0b10001011 0
    "mov ax, [bx + si]" 2 rfl rfl (by decide) (by decide)).1 (by decide)

/-- **C4.** For every immediate-to-register instruction (header byte top 4
bits `1011`): with width bit 0 the decoded immediate is the single trailing
byte (zero-extended), lies in `[0, 255]` and 2 bytes are consumed; with
width bit 1 the decoded immediate is the two trailing bytes read
little-endian, lies in `[0, 65535]` and 3 bytes are consumed; the emitted
decimal text is the exact unsigned value of the trailing bytes. -/
theorem immediate_to_register_value (data : List Nat) (p b1 : Nat)
    (h1 : data[p]? = some b1) (hop : b1 >>> 4 = 0b1011) :
    (∀ lo : Nat, (b1 >>> 3) &&& 0b1 = 0 → data[p + 1]? = some lo → lo < 256 →
      decodeStep data p =
        .emit ("mov " ++ RegisterNames ((b1 >>> 0) &&& 0b111) ((b1 >>> 3) &&& 0b1) ++
          ", " ++ Nat.repr lo) (p + 2) ∧ lo ≤ 255) ∧
    (∀ lo hi : Nat, (b1 >>> 3) &&& 0b1 = 1 → data[p + 1]? = some lo →
      data[p + 2]? = some hi → lo < 256 → hi < 256 →
      decodeStep data p =
        .emit ("mov " ++ RegisterNames ((b1 >>> 0) &&& 0b111) ((b1 >>> 3) &&& 0b1) ++
          ", " ++ Nat.repr (hi * 256 + lo)) (p + 3) ∧ hi * 256 + lo ≤ 65535) := by
  constructor
  · intro lo hw hlo hlo8
    have hlen : p + 1 < data.length := getElem?_some_lt hlo
    rw [decodeStep_imm h1 hlen hop]
    simp only [ImmediateToRegisterMovState, h1]
    rw [if_neg (by rw [hw]; decide)]
    simp only [hlo]
    have hval : bigEndianUint16 0 lo = lo := by unfold bigEndianUint16; omega
    rw [hval]
    exact ⟨rfl, by omega⟩
  · intro lo hi hw hlo hhi hlo8 hhi8
    have hlen : p + 1 < data.length := getElem?_some_lt hlo
    rw [decodeStep_imm h1 hlen hop]
    simp only [ImmediateToRegisterMovState, h1]
    rw [if_pos hw]
    simp only [hhi, hlo]
    have hval : bigEndianUint16 hi lo = hi * 256 + lo := by
      unfold bigEndianUint16; omega
    rw [hval]
    exact ⟨rfl, by omega⟩

/-- Witness for `immediate_to_register_value` on the 3-byte wide immediate
buffer `[0b10111000, 0b00000001, 0b00000000]` (the spec's `mov ax, 1`). -/
theorem immediate_to_register_value_witness :
    decodeStep [0b10111000, 0b00000001, 0b00000000] 0 =
      .emit ("mov " ++ RegisterNames ((0b10111000 >>> 0) &&& 0b111)
        ((0b10111000 >>> 3) &&& 0b1) ++ ", " ++ Nat.repr (0 * 256 + 1)) (0 + 3) ∧
      0 * 256 + 1 ≤ 65535 :=
  (immediate_to_register_value [0b10111000, 0b00000001, 0b00000000] 0 0b10111000
    rfl (by decide)).2 1 0 (by decide) rfl rfl (by decide) (by decide)

/-- **C5.** For every register/memory move instruction, in every mode: the
emitted line is exactly `mov <dest>, <src>`, where the REG-field operand
(looked up in the register table with the wide bit) is the destination when
the direction bit is 1 and the source when it is 0, and the r/m-derived
operand (memory expression for modes 00/01/10, register for mode 11) takes
the other role. -/
theorem regmem_operand_order (data : List Nat) (p b1 b2 : Nat) (line : String)
    (pn : Nat) (h1 : data[p]? = some b1) (h2 : data[p + 1]? = some b2)
    (hop : b1 >>> 2 = 0b100010)
    (hstep : decodeStep data p = .emit line pn) :
    ∃ rmOp : String,
      line = "mov " ++
          (if (b1 >>> 1) &&& 0b1 = 1
            then RegisterNames ((b2 >>> 3) &&& 0b111) ((b1 >>> 0) &&& 0b1) else rmOp) ++
          ", " ++
          (if (b1 >>> 1) &&& 0b1 = 1
            then rmOp else RegisterNames ((b2 >>> 3) &&& 0b111) ((b1 >>> 0) &&& 0b1)) ∧
      ((b2 >>> 6) &&& 0b11 = 0 →
        rmOp = "[" ++ MemoryEquations ((b2 >>> 0) &&& 0b111) ++ "]") ∧
      ((b2 >>> 6) &&& 0b11 = 1 → ∃ disp : Nat, data[p + 2]? = some disp ∧
        rmOp = "[" ++ MemoryEquations ((b2 >>> 0) &&& 0b111) ++ " + " ++
          Nat.repr (bigEndianUint16 0 disp) ++ "]") ∧
      ((b2 >>> 6) &&& 0b11 = 2 → ∃ lo hi : Nat, data[p + 2]? = some lo ∧
        data[p + 3]? = some hi ∧
        rmOp = "[" ++ MemoryEquations ((b2 >>> 0) &&& 0b111) ++ " + " ++
          Nat.repr (bigEndianUint16 hi lo) ++ "]") ∧
      ((b2 >>> 6) &&& 0b11 = 3 →
        rmOp = RegisterNames ((b2 >>> 0) &&& 0b111) ((b1 >>> 0) &&& 0b1)) := by
  rw [decodeStep_regmem h1 h2 hop] at hstep
  cases hr : RegAndRegOrMemState data p with
  | error e => rw [hr] at hstep; exact absurd hstep (by simp)
  | ok v =>
    obtain ⟨l1, pn1⟩ := v
    rw [hr] at hstep
    obtain ⟨rfl, rfl⟩ : l1 = line ∧ pn1 = pn := by simpa using hstep
    obtain ⟨rmOp, hline, hcases⟩ := RegAndRegOrMemState_ok_cases h1 h2 hr
    refine ⟨rmOp, hline, ?_, ?_, ?_, ?_⟩ <;> intro hm <;>
      rcases hcases with ⟨hm2, -, hdata⟩ | ⟨hm2, -, hdata⟩ | ⟨hm2, -, hdata⟩ | ⟨hm2, -, hdata⟩ <;>
        first
          | exact hdata
          | exact absurd (hm2.symm.trans hm) (by decide)

/-- Witness for `regmem_operand_order` on the mode-00 buffer
`[0b10001011, 0b00000000]`. -/
theorem regmem_operand_order_witness :
    ∃ rmOp : String, rmOp = "[" ++ MemoryEquations ((0 >>> 0) &&& 0b111) ++ "]" := by
  obtain ⟨rmOp, -, hm0, -, -, -⟩ := regmem_operand_order [0b10001011, 0b00000000] 0
    0b10001011 0 "mov ax, [bx + si]" 2 rfl rfl (by decide) (by decide)
  exact ⟨rmOp, hm0 (by decide)⟩

/-- **C6.** At the start of an instruction (the `InitialState` check of the
driver): with zero bytes remaining the run terminates successfully with the
accumulated output; with exactly one byte remaining it terminates with the
trailing-byte truncation error (message "Trailing byte found") and returns
no output sequence; in particular the empty buffer decodes to the empty
output with no error. -/
theorem start_state_terminal (data : List Nat) (p fuel : Nat) (acc : List String) :
    (data.length = p →
      decodeLoop (fuel + 1) data p acc = some (.ok acc)) ∧
    (data.length = p + 1 →
      decodeLoop (fuel + 1) data p acc = some (.error .trailingByte) ∧
        errorMessage .trailingByte = "Trailing byte found") ∧
    Decode [] = some (.ok []) := by
  refine ⟨?_, ?_, rfl⟩
  · intro h
    simp [decodeLoop, decodeStep_done h]
  · intro h
    exact ⟨by simp [decodeLoop, decodeStep_trailing h], rfl⟩

/-- Witness for `start_state_terminal` at the empty buffer and at the
one-byte buffer `[0b10001011]`. -/
theorem start_state_terminal_witness :
    decodeLoop 1 [] 0 [] = some (.ok []) ∧
      decodeLoop 1 [0b10001011] 0 [] = some (.error .trailingByte) :=
  ⟨(start_state_terminal [] 0 0 []).1 rfl,
   ((start_state_terminal [0b10001011] 0 0 []).2.1 rfl).1⟩

/-- **C7.** With at least 2 bytes remaining at the start of an instruction,
if the next byte matches neither opcode pattern (top 6 bits `100010`, top 4
bits `1011`), the run terminates immediately with the unknown-opcode error
carrying that byte, rendered with the byte's binary bit pattern, and returns
no output sequence. -/
theorem unknown_opcode_error (data : List Nat) (p fuel : Nat) (acc : List String)
    (b : Nat) (hb : data[p]? = some b) (hlen : p + 2 ≤ data.length)
    (hop1 : b >>> 2 ≠ 0b100010) (hop2 : b >>> 4 ≠ 0b1011) :
    decodeLoop (fuel + 1) data p acc = some (.error (.unknownOpcode b)) ∧
      errorMessage (.unknownOpcode b) = "Unknown opcode: " ++ binRepr b := by
  refine ⟨?_, rfl⟩
  have hs : decodeStep data p = .fail (.unknownOpcode b) :=
    decodeStep_unknown hb (by omega) hop1 hop2
  simp [decodeLoop, hs]

/-- Witness for `unknown_opcode_error` on the buffer `[0, 0]`. -/
theorem unknown_opcode_error_witness :
    decodeLoop 1 [0, 0] 0 [] = some (.error (.unknownOpcode 0)) ∧
      errorMessage (.unknownOpcode 0) = "Unknown opcode: " ++ binRepr 0 :=
  unknown_opcode_error [0, 0] 0 0 [] 0 (by decide) (by decide) (by decide) (by decide)

/-- **C8.** For every finite input buffer the decode state machine
terminates (the driver loop, given fuel `length + 1`, never runs out of
fuel), because every step that emits an instruction advances the cursor by
at least 2 bytes and keeps it bounded by the buffer length. -/
theorem decode_terminates (data : List Nat) :
    Decode data ≠ none ∧
    ∀ p line pn, decodeStep data p = .emit line pn →
      p + 2 ≤ pn ∧ pn ≤ data.length := by
  refine ⟨decodeLoop_ne_none _ _ _ _ (by omega), ?_⟩
  intro p line pn h
  exact decodeStep_emit_bounds h

/-- Witness for `decode_terminates` on the buffer `[0b10001001, 0b11011001]`. -/
theorem decode_terminates_witness :
    Decode [0b10001001, 0b11011001] ≠ none ∧ (0 + 2 ≤ 2 ∧ 2 ≤ 2) :=
  ⟨(decode_terminates [0b10001001, 0b11011001]).1,
   (decode_terminates [0b10001001, 0b11011001]).2 0 "mov cx, bx" 2 (by decide)⟩

/-- **C9.** For every two-byte register-to-register encoding (opcode bits
`100010`, mode `11`), extracting the fields with the source's shift/mask
rules and re-encoding them by the documented bit layout reproduces the
original two bytes. -/
theorem regreg_roundtrip (b1 b2 : Nat) (h1 : b1 < 256) (h2 : b2 < 256)
    (hop : b1 >>> 2 = 0b100010) (hmode : (b2 >>> 6) &&& 0b11 = 0b11) :
    encodeRegReg (b1 >>> 2) ((b1 >>> 1) &&& 0b1) ((b1 >>> 0) &&& 0b1)
      ((b2 >>> 6) &&& 0b11) ((b2 >>> 3) &&& 0b111) ((b2 >>> 0) &&& 0b111) =
      (b1, b2) := by
  have e1 : ∀ b : Nat, b < 256 →
      (b >>> 2) <<< 2 ||| ((b >>> 1) &&& 0b1) <<< 1 ||| ((b >>> 0) &&& 0b1) = b := by
    decide
  have e2 : ∀ b : Nat, b < 256 →
      ((b >>> 6) &&& 0b11) <<< 6 ||| ((b >>> 3) &&& 0b111) <<< 3 |||
        ((b >>> 0) &&& 0b111) = b := by
    decide
  unfold encodeRegReg
  rw [Prod.mk.injEq]
  exact ⟨e1 b1 h1, e2 b2 h2⟩

/-- Witness for `regreg_roundtrip` at the encoding of `mov cx, bx`. -/
theorem regreg_roundtrip_witness :
    encodeRegReg (0b10001001 >>> 2) ((0b10001001 >>> 1) &&& 0b1)
      ((0b10001001 >>> 0) &&& 0b1) ((0b11011001 >>> 6) &&& 0b11)
      ((0b11011001 >>> 3) &&& 0b111) ((0b11011001 >>> 0) &&& 0b111) =
      (0b10001001, 0b11011001) :=
  regreg_roundtrip 0b10001001 0b11011001 (by decide) (by decide) (by decide) (by decide)

/-- **C10.** For every input buffer that is a concatenation of two-byte
register-to-register move instructions (opcode bits `100010`, mode bits
`11`), the multi-variant decoder and the earlier register-only decoder
produce identical results (and hence identical output sequences). -/
theorem decoders_agree (instrs : List (Nat × Nat))
    (h : ∀ pr ∈ instrs, pr.1 >>> 2 = 0b100010 ∧ (pr.2 >>> 6) &&& 0b11 = 0b11) :
    Decode (regRegBytes instrs) = V2.Decode (regRegBytes instrs) := by
  unfold Decode V2.Decode
  exact decoders_agree_loop instrs _ 0 [] _ _ (by simp) (by omega) h (by omega) (by omega)

/-- Witness for `decoders_agree` on the one-instruction buffer encoding
`mov cx, bx`. -/
theorem decoders_agree_witness :
    Decode (regRegBytes [(0b10001001, 0b11011001)]) =
      V2.Decode (regRegBytes [(0b10001001, 0b11011001)]) :=
  decoders_agree [(0b10001001, 0b11011001)] (by decide)

end Sim8086
